import Mathlib

set_option maxHeartbeats 1000000

namespace Csvtojs

/-- Python `str.strip()` whitespace test, restricted to the ASCII whitespace
characters (the only ones the repository's inputs exercise). -/
def isPySpace (c : Char) : Bool :=
  c = ' ' || c = '\t' || c = '\n' || c = '\r' || c = '\x0b' || c = '\x0c'

/-- Strip a character list on both ends, as Python `str.strip()` does. -/
def stripChars (l : List Char) : List Char :=
  ((l.dropWhile isPySpace).reverse.dropWhile isPySpace).reverse

/-- Python `str.strip()`. -/
def pyStrip (s : String) : String :=
  String.mk (stripChars s.data)

/-- Python `str.lower()` (ASCII range, which is all the source compares). -/
def pyLower (s : String) : String :=
  String.mk (s.data.map Char.toLower)

/-- Python substring test `needle in hay` on strings. -/
def strContains (hay needle : String) : Bool :=
  (List.range (hay.data.length + 1)).any (fun i => needle.data.isPrefixOf (hay.data.drop i))

/-- One output record of the converter: the three string fields the script
emits for each CSV row. -/
structure Record where
  key : String
  common : String
  scientific : String
deriving DecidableEq, Repr

/-- Insert into a Python dict modelled as an association list in insertion
order: overwriting a present key keeps its position, a new key is appended. -/
def dictInsert {α β : Type} [DecidableEq α] (d : List (α × β)) (k : α) (v : β) :
    List (α × β) :=
  if d.any (fun p => p.1 = k) then d.map (fun p => if p.1 = k then (k, v) else p)
  else d ++ [(k, v)]

/-- Build a Python dict (insertion-ordered, last write per key wins) from a
list of key-value pairs, as `dict(...)` and dict comprehensions do. -/
def dictOfList {α β : Type} [DecidableEq α] (l : List (α × β)) : List (α × β) :=
  l.foldl (fun d p => dictInsert d p.1 p.2) []

/-- A value in a `csv.DictReader` row mapping: a cell (`none` standing for the
`restval = None` filled in when the row is shorter than the header), or the
list of surplus cells stored under the `restkey`. -/
inductive DictVal where
  | cell (v : Option String)
  | surplus (cells : List String)
deriving DecidableEq, Repr

/-- A row as produced by `csv.DictReader`: a mapping, in insertion order, from
field name to value; the key `none` models the `restkey = None` under which
surplus cells are stored. -/
def DictRow := List (Option String × DictVal)

/-- Build one `csv.DictReader` row from the header list and the cells of a
data row: `dict(zip(self.fieldnames, row))`, then surplus cells stored under
the `None` restkey when the row is longer than the header, or trailing field
names filled with the `None` restval when it is shorter. -/
def dictReaderRow (fieldnames : List String) (cells : List String) : DictRow :=
  let base : DictRow :=
    dictOfList ((fieldnames.zip cells).map (fun p => (some p.1, DictVal.cell (some p.2))))
  if fieldnames.length < cells.length then
    dictInsert base none (DictVal.surplus (cells.drop fieldnames.length))
  else
    (fieldnames.drop cells.length).foldl
      (fun d k => dictInsert d (some k) (DictVal.cell none)) base

/-- Result of the source's `infer_fields`: header mode or positional fallback. -/
inductive InferMode where
  | header
  | fallback
deriving DecidableEq, Repr

/-- The source's `infer_fields`: header mode exactly when the stripped,
lowered header names contain both `key` and `common name` (the scientific-name
index the source also computes is dead code); the caller passes the result to
`build_records_from_dictrow`, which ignores it. -/
def infer_fields (fieldnames : Option (List String)) : InferMode :=
  let low := (fieldnames.getD []).map (fun f => pyLower (pyStrip f))
  if low.contains "key" && low.contains "common name" then InferMode.header
  else InferMode.fallback

/-- The string-keyed items of a `DictRow`, keeping of each value only the
optional cell text the source ever reads. -/
def dictItems (row : DictRow) : List (String × Option String) :=
  row.filterMap (fun e =>
    match e.1, e.2 with
    | some k, DictVal.cell v => some (k, v)
    | _, _ => none)

/-- The lookup dict `\x7bk.strip().lower(): (k, v) for k, v in row.items()\x7d`
of `build_records_from_dictrow`, keeping only the value component the source
ever reads from each pair. -/
def normLookup (items : List (String × Option String)) : List (String × Option String) :=
  dictOfList (items.map (fun p => (pyLower (pyStrip p.1), p.2)))

/-- The inner helper `g(name)` of `build_records_from_dictrow`: exact key
lookup first, else the first key in dict insertion order containing `name` as
a substring; a missing key or a `None` value yields the empty string, and the
found value is stripped. -/
def gfield (lookup : List (String × Option String)) (name : String) : String :=
  match lookup.find? (fun p => p.1 = name) with
  | some p => pyStrip (p.2.getD "")
  | none =>
    match lookup.find? (fun p => strContains p.1 name) with
    | some p => pyStrip (p.2.getD "")
    | none => ""

/-- Python `a or b` on strings: `b` when `a` is empty. -/
def pyOr (a b : String) : String := if a = "" then b else a

/-- The record `build_records_from_dictrow` assembles from the string-keyed
items of a row. -/
def buildFromItems (items : List (String × Option String)) : Record :=
  ⟨gfield (normLookup items) "key",
   pyOr (gfield (normLookup items) "common name") (gfield (normLookup items) "common"),
   pyOr (gfield (normLookup items) "scientific name") (gfield (normLookup items) "scientific")⟩

/-- Error kinds of the conversion: `FileNotFoundError` for a missing input
path, and `readError` for any other exception raised while parsing. -/
inductive ConvError where
  | notFound
  | readError
deriving DecidableEq, Repr

deriving instance DecidableEq for Except

/-- The source's `build_records_from_dictrow`. Its first dict comprehension,
`\x7bk.strip(): v for k, v in row.items()\x7d`, calls `.strip()` on every key, so a
row that keeps surplus cells under the `None` restkey raises `AttributeError`,
modelled as `ConvError.readError`; otherwise the record is built from the
string-keyed items. The `headers_mode` argument is unused, as in the source. -/
def build_records_from_dictrow (row : DictRow) (_headers_mode : InferMode) :
    Except ConvError Record :=
  if row.any (fun e => e.1.isNone) then Except.error ConvError.readError
  else Except.ok (buildFromItems (dictItems row))

/-- The source's `build_records_from_rowlist`: positional record from the
first three cells (a missing cell gives the empty string), each re-stripped. -/
def build_records_from_rowlist (cols : List String) : Record :=
  ⟨pyStrip (cols.getD 0 ""), pyStrip (cols.getD 1 ""), pyStrip (cols.getD 2 "")⟩

/-- The header-keyed loop of `convert_csv_to_records`: `csv.DictReader` skips
rows with no cells, every other row is turned into a record by
`build_records_from_dictrow`, records whose key and common are both empty are
dropped, and an exception aborts the whole conversion. -/
def headerLoop (fieldnames : List String) (mode : InferMode) :
    List (List String) → List Record → Except ConvError (List Record)
  | [], acc => Except.ok acc
  | r :: rest, acc =>
    if r = [] then headerLoop fieldnames mode rest acc
    else
      match build_records_from_dictrow (dictReaderRow fieldnames r) mode with
      | Except.error e => Except.error e
      | Except.ok rcd =>
        if rcd.key = "" && rcd.common = "" then headerLoop fieldnames mode rest acc
        else headerLoop fieldnames mode rest (acc ++ [rcd])

/-- The header-keyed pass: the first row of the file is the `csv.DictReader`
field-name row and the remaining rows are data; an empty file yields no
records. -/
def headerPass (rows : List (List String)) : Except ConvError (List Record) :=
  match rows with
  | [] => Except.ok []
  | fieldnames :: rest => headerLoop fieldnames (infer_fields (some fieldnames)) rest []

/-- The positional loop of `convert_csv_to_records`: each row's cells are
stripped, rows with no non-empty cell are skipped, and records whose key and
common are both empty are dropped. -/
def posLoop : List (List String) → List Record → List Record
  | [], acc => acc
  | r :: rest, acc =>
    let cols := r.map pyStrip
    if cols.all (fun c => c = "") then posLoop rest acc
    else
      let rcd := build_records_from_rowlist cols
      if rcd.key = "" && rcd.common = "" then posLoop rest acc
      else posLoop rest (acc ++ [rcd])

/-- The positional pass, run over the whole file from the start. -/
def positionalPass (rows : List (List String)) : List Record :=
  posLoop rows []

/-- A CSV input as the source sees it: the rows `csv.reader` yields (one list
of cells per line, a blank line giving `[]`), together with the verdict of
`csv.Sniffer().has_header` on the 8192-byte sample. The verdict is carried as
a field because it is a function of the raw bytes, which this embedding does
not model; the source substitutes `True` when the sniffer raises. -/
structure CsvFile where
  rows : List (List String)
  sniffHeader : Bool
deriving DecidableEq, Repr

/-- What `convert_csv_to_records` does with the outcome of the header-keyed
pass: an exception propagates; `if records: return records`; zero records
fall through to the positional pass over the whole file (`fh.seek(0)`). -/
def afterHeader (rows : List (List String)) :
    Except ConvError (List Record) → Except ConvError (List Record)
  | Except.error e => Except.error e
  | Except.ok records =>
    if records.isEmpty then Except.ok (positionalPass rows) else Except.ok records

/-- The source's `convert_csv_to_records`; the argument is `none` exactly when
the input path does not exist. When the sniffer reports a header, the
header-keyed pass runs first and its records are returned if there is at
least one; otherwise the file is re-read and parsed positionally. -/
def convert_csv_to_records (file : Option CsvFile) : Except ConvError (List Record) :=
  match file with
  | none => Except.error ConvError.notFound
  | some f =>
    if f.sniffHeader then afterHeader f.rows (headerPass f.rows)
    else Except.ok (positionalPass f.rows)

/-- The opening-brace character of a JSON object. -/
def lbrace : Char := Char.ofNat 123

/-- The closing-brace character of a JSON object. -/
def rbrace : Char := Char.ofNat 125

/-- The hex digit `json.dumps` uses in a `\u` escape (lower case). -/
def hexDigitChar (n : Nat) : Char :=
  if n < 10 then Char.ofNat (48 + n) else Char.ofNat (87 + n)

/-- Four lower-case hex digits, as `json.dumps` writes `\u` escapes. -/
def hex4 (n : Nat) : List Char :=
  [hexDigitChar (n / 4096 % 16), hexDigitChar (n / 256 % 16),
   hexDigitChar (n / 16 % 16), hexDigitChar (n % 16)]

/-- How `json.dumps(..., ensure_ascii=False)` renders one character of a
string: the backslash, the double quote and the control characters are
escaped (the named escapes first, `\u....` for the rest); every other
character, non-ASCII included, is emitted literally. -/
def jsonEscapeChar (c : Char) : List Char :=
  if c = '\\' then ['\\', '\\']
  else if c = '"' then ['\\', '"']
  else if c = '\x08' then ['\\', 'b']
  else if c = '\x0c' then ['\\', 'f']
  else if c = '\n' then ['\\', 'n']
  else if c = '\r' then ['\\', 'r']
  else if c = '\t' then ['\\', 't']
  else if c.toNat < 32 then '\\' :: 'u' :: hex4 c.toNat
  else [c]

/-- A JSON string literal for `s`: quote, escaped body, quote. -/
def escChars (s : String) : List Char :=
  '"' :: s.data.flatMap jsonEscapeChar ++ ['"']

/-- Join chunks with a separator (Python `sep.join`). -/
def joinSep (sep : List Char) : List (List Char) → List Char
  | [] => []
  | [x] => x
  | x :: y :: rest => x ++ sep ++ joinSep sep (y :: rest)

/-- One record object rendered with layout parameters: `wk` is the whitespace
before each member name, `wv` the whitespace after each colon, `wend` the
whitespace before the closing brace; member order `key`, `common`,
`scientific` as `json.dumps` keeps the dict insertion order. -/
def recordEnc (wk wv wend : List Char) (r : Record) : List Char :=
  lbrace :: (wk ++ (escChars "key" ++ ':' :: (wv ++ (escChars r.key
    ++ ',' :: (wk ++ (escChars "common" ++ ':' :: (wv ++ (escChars r.common
    ++ ',' :: (wk ++ (escChars "scientific" ++ ':' :: (wv ++ (escChars r.scientific
    ++ (wend ++ [rbrace])))))))))))))

/-- `json.dumps(records, ensure_ascii=False, separators=(",", ":"))`: each
record object rendered with no whitespace at all, objects joined by bare
commas. -/
def dumpsCompact (records : List Record) : String :=
  String.mk ('[' :: joinSep [','] (records.map (recordEnc [] [] [])) ++ [']'])

/-- `json.dumps(records, ensure_ascii=False, indent=2)`: the empty list stays
`[]`; otherwise each object brace sits at indent 2, its member names at
indent 4 with a space after each colon, its closing brace back at indent 2,
and objects are joined by `,` plus a newline. -/
def dumpsPretty (records : List Record) : String :=
  match records with
  | [] => "[]"
  | _ => String.mk ('[' :: '\n' :: ' ' :: ' ' ::
      joinSep [',', '\n', ' ', ' '] (records.map
        (recordEnc ['\n', ' ', ' ', ' ', ' '] [' '] ['\n', ' ', ' '])) ++ ['\n', ']'])

/-- The text the source's `write_js` writes: a single assignment statement,
compact (`<var>=<json>;`) or pretty (`<var> = <json>;`), ending in a newline. -/
def write_js_text (records : List Record) (var_name : String) (compact : Bool) : String :=
  if compact then var_name ++ "=" ++ dumpsCompact records ++ ";\n"
  else var_name ++ " = " ++ dumpsPretty records ++ ";\n"

/-- Exit code of the source's `main`: 2 when `convert_csv_to_records` raises
(path missing or any error while reading the CSV), 0 otherwise. -/
def mainExitCode (file : Option CsvFile) : Nat :=
  match convert_csv_to_records file with
  | Except.error _ => 2
  | Except.ok _ => 0

/-- The file content the source's `main` writes, or `none` when conversion
failed and the process exited before writing. -/
def mainOutput (file : Option CsvFile) (var_name : String) (compact : Bool) :
    Option String :=
  match convert_csv_to_records file with
  | Except.error _ => none
  | Except.ok records => some (write_js_text records var_name compact)

/-- JSON whitespace, as a reader of the emitted text may skip it. -/
def jsonWs (c : Char) : Bool := c = ' ' || c = '\t' || c = '\n' || c = '\r'

/-- Drop JSON whitespace. -/
def skipWs (l : List Char) : List Char := l.dropWhile jsonWs

/-- Expect one token character after optional JSON whitespace. -/
def expectChar (c : Char) (l : List Char) : Option (List Char) :=
  match skipWs l with
  | [] => none
  | d :: rest => if d = c then some rest else none

/-- Decode a single-character JSON escape. -/
def unescapeChar (c : Char) : Option Char :=
  if c = '"' then some '"'
  else if c = '\\' then some '\\'
  else if c = '/' then some '/'
  else if c = 'b' then some '\x08'
  else if c = 'f' then some '\x0c'
  else if c = 'n' then some '\n'
  else if c = 'r' then some '\r'
  else if c = 't' then some '\t'
  else none

/-- Value of a hex digit, either case. -/
def hexVal (c : Char) : Option Nat :=
  if '0' ≤ c ∧ c ≤ '9' then some (c.toNat - 48)
  else if 'a' ≤ c ∧ c ≤ 'f' then some (c.toNat - 87)
  else if 'A' ≤ c ∧ c ≤ 'F' then some (c.toNat - 55)
  else none

/-- Read a JSON string body up to its closing quote, decoding escapes;
returns the decoded characters and the remaining input. -/
def parseStrBody : List Char → Option (List Char × List Char)
  | [] => none
  | c :: rest =>
    if c = '"' then some ([], rest)
    else if c = '\\' then
      match rest with
      | [] => none
      | e :: rest2 =>
        if e = 'u' then
          match rest2 with
          | h1 :: h2 :: h3 :: h4 :: rest3 =>
            match hexVal h1, hexVal h2, hexVal h3, hexVal h4, parseStrBody rest3 with
            | some a, some b, some c2, some d, some (s, r) =>
              some (Char.ofNat (4096 * a + 256 * b + 16 * c2 + d) :: s, r)
            | _, _, _, _, _ => none
          | _ => none
        else
          match unescapeChar e, parseStrBody rest2 with
          | some d, some (s, r) => some (d :: s, r)
          | _, _ => none
    else
      match parseStrBody rest with
      | some (s, r) => some (c :: s, r)
      | none => none

/-- Read a JSON string literal (whitespace, quote, body). -/
def parseJString (l : List Char) : Option (List Char × List Char) :=
  match expectChar '"' l with
  | some rest => parseStrBody rest
  | none => none

/-- Read one `"name": "value"` member whose name must be `name`. -/
def parseField (name : String) (l : List Char) : Option (String × List Char) := do
  let (n, l1) ← parseJString l
  if n = name.data then do
    let l2 ← expectChar ':' l1
    let (v, l3) ← parseJString l2
    pure (String.mk v, l3)
  else none

/-- Read one record object: the three members in the order the emitter
writes them. -/
def parseRecordObj (l : List Char) : Option (Record × List Char) := do
  let l1 ← expectChar lbrace l
  let (k, l2) ← parseField "key" l1
  let l3 ← expectChar ',' l2
  let (cm, l4) ← parseField "common" l3
  let l5 ← expectChar ',' l4
  let (sc, l6) ← parseField "scientific" l5
  let l7 ← expectChar rbrace l6
  pure (⟨k, cm, sc⟩, l7)

/-- Read a comma-separated sequence of record objects up to the closing `]`;
`fuel` bounds the number of elements. -/
def parseRecsAux : Nat → List Char → Option (List Record × List Char)
  | 0, _ => none
  | fuel + 1, l => do
    let (r, l1) ← parseRecordObj l
    match expectChar ',' l1 with
    | some l2 => do
      let (rs, l3) ← parseRecsAux fuel l2
      pure (r :: rs, l3)
    | none => do
      let l2 ← expectChar ']' l1
      pure ([r], l2)

/-- Read a whole JSON array of record objects, allowing arbitrary JSON
whitespace between tokens, and require that nothing but whitespace follows:
the one reader serves both the compact and the pretty output. -/
def parseRecordsText (s : String) : Option (List Record) := do
  let l1 ← expectChar '[' s.data
  match expectChar ']' l1 with
  | some l2 => if skipWs l2 = [] then pure [] else none
  | none => do
    let (rs, l2) ← parseRecsAux (s.data.length + 1) l1
    if skipWs l2 = [] then pure rs else none

/-- The record a row yields when the relevant columns are the first three:
the stripped first, second and third cells (empty when absent). -/
def rowRecord (r : List String) : Record :=
  ⟨pyStrip (r.getD 0 ""), pyStrip (r.getD 1 ""), pyStrip (r.getD 2 "")⟩

/-- A row contributes a record exactly when its stripped first or second cell
is non-empty. -/
def rowQualifies (r : List String) : Bool :=
  !(pyStrip (r.getD 0 "") = "" && pyStrip (r.getD 1 "") = "")

lemma dropWhile_self (p : Char → Bool) (l : List Char) :
    List.dropWhile p (List.dropWhile p l) = List.dropWhile p l := by
  induction l with
  | nil => simp
  | cons a l ih => by_cases h : p a <;> simp [List.dropWhile_cons, h, ih]

lemma dropWhile_eq_self_of_prefix {p : Char → Bool} {m B : List Char}
    (hm : List.dropWhile p m = m) (hpre : B <+: m) : List.dropWhile p B = B := by
  cases B with
  | nil => simp
  | cons b B' =>
    obtain ⟨t, ht⟩ := hpre
    have hm2 : List.dropWhile p (b :: (B' ++ t)) = b :: (B' ++ t) := by
      rw [← List.cons_append, ht]
      exact hm
    have hb : p b = false := by
      by_contra hcon
      have hb' : p b = true := by simpa using hcon
      rw [List.dropWhile_cons, if_pos hb'] at hm2
      have hle : (List.dropWhile p (B' ++ t)).length ≤ (B' ++ t).length :=
        (List.dropWhile_suffix p).sublist.length_le
      have hlen := congrArg List.length hm2
      simp at hlen hle
      omega
    rw [List.dropWhile_cons, hb]
    simp

lemma stripChars_idem (l : List Char) : stripChars (stripChars l) = stripChars l := by
  have hmm : List.dropWhile isPySpace (List.dropWhile isPySpace l) =
      List.dropWhile isPySpace l := dropWhile_self _ l
  have hpre : (List.dropWhile isPySpace (List.dropWhile isPySpace l).reverse).reverse <+:
      List.dropWhile isPySpace l := by
    have hsuf : List.dropWhile isPySpace (List.dropWhile isPySpace l).reverse <:+
        (List.dropWhile isPySpace l).reverse := List.dropWhile_suffix _
    have := List.reverse_prefix.mpr hsuf
    simpa using this
  show (List.dropWhile isPySpace ((stripChars l).dropWhile isPySpace).reverse).reverse =
    stripChars l
  have h1 : (stripChars l).dropWhile isPySpace = stripChars l :=
    dropWhile_eq_self_of_prefix hmm hpre
  rw [h1]
  have h2 : (stripChars l).reverse =
      List.dropWhile isPySpace (List.dropWhile isPySpace l).reverse := by
    show ((List.dropWhile isPySpace (List.dropWhile isPySpace l).reverse).reverse).reverse = _
    rw [List.reverse_reverse]
  rw [h2, dropWhile_self]
  rfl

lemma pyStrip_idem (s : String) : pyStrip (pyStrip s) = pyStrip s := by
  show String.mk (stripChars (stripChars s.data)) = String.mk (stripChars s.data)
  rw [stripChars_idem]

lemma pyStrip_empty : pyStrip "" = "" := rfl

lemma getD_map_pyStrip : ∀ (l : List String) (i : Nat),
    (l.map pyStrip).getD i "" = pyStrip (l.getD i "") := by
  intro l
  induction l with
  | nil => intro i; simp [pyStrip_empty]
  | cons a l ih =>
    intro i
    cases i with
    | zero => simp
    | succ j => simpa using ih j

lemma getD_all_empty : ∀ (l : List String) (i : Nat), (∀ x ∈ l, x = "") →
    l.getD i "" = "" := by
  intro l
  induction l with
  | nil => intro i _; simp
  | cons a l ih =>
    intro i h
    cases i with
    | zero => simpa using h a (by simp)
    | succ j => simpa using ih j (fun x hx => h x (by simp [hx]))

lemma build_rowlist_stripped (r : List String) :
    build_records_from_rowlist (r.map pyStrip) = rowRecord r := by
  unfold build_records_from_rowlist rowRecord
  rw [getD_map_pyStrip, getD_map_pyStrip, getD_map_pyStrip,
    pyStrip_idem, pyStrip_idem, pyStrip_idem]

lemma posLoop_eq : ∀ (rows : List (List String)) (acc : List Record),
    posLoop rows acc = acc ++ (rows.filter rowQualifies).map rowRecord := by
  intro rows
  induction rows with
  | nil => intro acc; simp [posLoop]
  | cons r rest ih =>
    intro acc
    by_cases hall : (r.map pyStrip).all (fun c => c = "")
    · have hmem : ∀ x ∈ r.map pyStrip, x = "" := by
        simpa [List.all_eq_true] using hall
      have h0 : pyStrip (r.getD 0 "") = "" := by
        rw [← getD_map_pyStrip]; exact getD_all_empty _ _ hmem
      have h1 : pyStrip (r.getD 1 "") = "" := by
        rw [← getD_map_pyStrip]; exact getD_all_empty _ _ hmem
      have hq : rowQualifies r = false := by
        rw [rowQualifies, h0, h1]; simp
      simp [posLoop, hall, hq, ih]
    · rw [show posLoop (r :: rest) acc =
          (if (r.map pyStrip).all (fun c => c = "") then posLoop rest acc
           else
             if (build_records_from_rowlist (r.map pyStrip)).key = "" &&
                 (build_records_from_rowlist (r.map pyStrip)).common = "" then
               posLoop rest acc
             else posLoop rest (acc ++ [build_records_from_rowlist (r.map pyStrip)]))
          from rfl]
      rw [if_neg (by simpa using hall), build_rowlist_stripped]
      by_cases hq : rowQualifies r
      · have hcond : ((rowRecord r).key = "" && (rowRecord r).common = "") = false := by
          have := hq
          simp only [rowQualifies, rowRecord, Bool.not_eq_true'] at this ⊢
          simpa using this
        rw [hcond]
        simp only [Bool.false_eq_true, if_false]
        rw [ih, List.filter_cons_of_pos (by simpa using hq)]
        simp
      · have hcond : ((rowRecord r).key = "" && (rowRecord r).common = "") = true := by
          simp only [rowQualifies, rowRecord] at hq ⊢
          simpa using hq
        rw [hcond]
        simp only [if_true]
        rw [ih, List.filter_cons_of_neg (by simpa using hq)]

lemma positionalPass_eq (rows : List (List String)) :
    positionalPass rows = (rows.filter rowQualifies).map rowRecord := by
  simpa using posLoop_eq rows []

lemma build_error_read {row : DictRow} {mode : InferMode} {e : ConvError}
    (h : build_records_from_dictrow row mode = Except.error e) :
    e = ConvError.readError := by
  unfold build_records_from_dictrow at h
  by_cases hn : row.any (fun x => x.1.isNone)
  · rw [if_pos hn] at h
    cases h
    rfl
  · rw [if_neg hn] at h
    cases h

lemma headerLoop_nil (fn : List String) (mode : InferMode) (acc : List Record) :
    headerLoop fn mode [] acc = Except.ok acc := rfl

lemma headerLoop_cons_blank (fn : List String) (mode : InferMode)
    (rest : List (List String)) (acc : List Record) :
    headerLoop fn mode ([] :: rest) acc = headerLoop fn mode rest acc := by
  rw [headerLoop]
  simp

lemma headerLoop_cons_error {fn : List String} {mode : InferMode} {r : List String}
    {rest : List (List String)} {acc : List Record} {e : ConvError} (hr : r ≠ [])
    (hb : build_records_from_dictrow (dictReaderRow fn r) mode = Except.error e) :
    headerLoop fn mode (r :: rest) acc = Except.error e := by
  rw [headerLoop, if_neg (by simpa using hr), hb]

lemma headerLoop_cons_ok {fn : List String} {mode : InferMode} {r : List String}
    {rest : List (List String)} {acc : List Record} {rcd : Record} (hr : r ≠ [])
    (hb : build_records_from_dictrow (dictReaderRow fn r) mode = Except.ok rcd) :
    headerLoop fn mode (r :: rest) acc =
      if rcd.key = "" && rcd.common = "" then headerLoop fn mode rest acc
      else headerLoop fn mode rest (acc ++ [rcd]) := by
  rw [headerLoop, if_neg (by simpa using hr), hb]

lemma headerLoop_error_read : ∀ {fn : List String} {mode : InferMode}
    {rows : List (List String)} {acc : List Record} {e : ConvError},
    headerLoop fn mode rows acc = Except.error e → e = ConvError.readError := by
  intro fn mode rows
  induction rows with
  | nil => intro acc e h; rw [headerLoop_nil] at h; cases h
  | cons r rest ih =>
    intro acc e h
    by_cases hr : r = []
    · subst hr
      rw [headerLoop_cons_blank] at h
      exact ih h
    · cases hb : build_records_from_dictrow (dictReaderRow fn r) mode with
      | error e2 =>
        rw [headerLoop_cons_error hr hb] at h
        cases h
        exact build_error_read hb
      | ok rcd =>
        rw [headerLoop_cons_ok hr hb] at h
        by_cases hc : (rcd.key = "" && rcd.common = "") = true
        · rw [if_pos hc] at h; exact ih h
        · rw [if_neg hc] at h; exact ih h

lemma headerPass_error_read {rows : List (List String)} {e : ConvError}
    (h : headerPass rows = Except.error e) : e = ConvError.readError := by
  unfold headerPass at h
  cases rows with
  | nil => cases h
  | cons fn rest => exact headerLoop_error_read h

lemma headerLoop_all_qual : ∀ {fn : List String} {mode : InferMode}
    {rows : List (List String)} {acc recs : List Record},
    headerLoop fn mode rows acc = Except.ok recs →
    (∀ rc ∈ acc, rc.key ≠ "" ∨ rc.common ≠ "") →
    ∀ rc ∈ recs, rc.key ≠ "" ∨ rc.common ≠ "" := by
  intro fn mode rows
  induction rows with
  | nil =>
    intro acc recs h hacc
    rw [headerLoop_nil] at h
    cases h
    exact hacc
  | cons r rest ih =>
    intro acc recs h hacc
    by_cases hr : r = []
    · subst hr
      rw [headerLoop_cons_blank] at h
      exact ih h hacc
    · cases hb : build_records_from_dictrow (dictReaderRow fn r) mode with
      | error e2 => rw [headerLoop_cons_error hr hb] at h; cases h
      | ok rcd =>
        rw [headerLoop_cons_ok hr hb] at h
        by_cases hc : (rcd.key = "" && rcd.common = "") = true
        · rw [if_pos hc] at h
          exact ih h hacc
        · rw [if_neg hc] at h
          refine ih h ?_
          intro rc hrc
          rcases List.mem_append.mp hrc with hm | hm
          · exact hacc rc hm
          · have hrceq : rc = rcd := by simpa using hm
            subst hrceq
            have hcf : (rc.key = "" && rc.common = "") = false :=
              Bool.not_eq_true _ ▸ hc
            rcases Bool.and_eq_false_iff.mp hcf with hk | hk
            · exact Or.inl (by simpa using hk)
            · exact Or.inr (by simpa using hk)

lemma posPass_all_qual (rows : List (List String)) :
    ∀ rc ∈ positionalPass rows, rc.key ≠ "" ∨ rc.common ≠ "" := by
  rw [positionalPass_eq]
  intro rc hrc
  rcases List.mem_map.mp hrc with ⟨r, hr, hrec⟩
  have hq : rowQualifies r = true := List.of_mem_filter hr
  subst hrec
  simp only [rowQualifies, Bool.not_eq_true'] at hq
  rcases Bool.and_eq_false_iff.mp hq with hk | hk
  · exact Or.inl (by simpa [rowRecord] using hk)
  · exact Or.inr (by simpa [rowRecord] using hk)

lemma headerPass_nil : headerPass [] = Except.ok [] := rfl

lemma headerPass_cons (fn : List String) (rest : List (List String)) :
    headerPass (fn :: rest) = headerLoop fn (infer_fields (some fn)) rest [] := rfl

lemma afterHeader_error (rows : List (List String)) (e : ConvError) :
    afterHeader rows (Except.error e) = Except.error e := rfl

lemma afterHeader_ok (rows : List (List String)) (records : List Record) :
    afterHeader rows (Except.ok records) =
      if records.isEmpty then Except.ok (positionalPass rows) else Except.ok records := rfl

lemma convert_none : convert_csv_to_records none = Except.error ConvError.notFound := rfl

lemma convert_some_true (rows : List (List String)) :
    convert_csv_to_records (some ⟨rows, true⟩) = afterHeader rows (headerPass rows) := rfl

lemma convert_some_false (rows : List (List String)) :
    convert_csv_to_records (some ⟨rows, false⟩) = Except.ok (positionalPass rows) := rfl

lemma headerPass_all_qual {rows : List (List String)} {recs : List Record}
    (h : headerPass rows = Except.ok recs) :
    ∀ rc ∈ recs, rc.key ≠ "" ∨ rc.common ≠ "" := by
  cases rows with
  | nil =>
    rw [headerPass_nil] at h
    cases h
    intro rc hrc
    cases hrc
  | cons fn rest =>
    rw [headerPass_cons] at h
    exact headerLoop_all_qual h (by intro rc hrc; cases hrc)

/-- C3: every record the conversion returns, in either parse mode, has a
non-empty key or a non-empty common field; a row whose derived key and common
are both empty never contributes a record. -/
theorem c3_no_record_with_empty_key_and_common (file : Option CsvFile)
    (recs : List Record) (h : convert_csv_to_records file = Except.ok recs) :
    ∀ rc ∈ recs, rc.key ≠ "" ∨ rc.common ≠ "" := by
  cases file with
  | none => cases h
  | some f =>
    obtain ⟨rows, b⟩ := f
    cases b with
    | false =>
      rw [convert_some_false] at h
      cases h
      exact posPass_all_qual rows
    | true =>
      rw [convert_some_true] at h
      cases hp : headerPass rows with
      | error e =>
        rw [hp, afterHeader_error] at h
        cases h
      | ok records =>
        rw [hp, afterHeader_ok] at h
        by_cases he : records.isEmpty = true
        · rw [if_pos he] at h
          cases h
          exact posPass_all_qual rows
        · rw [if_neg he] at h
          cases h
          exact headerPass_all_qual hp

/-- Witness for C3 at the specification's example input and its first output
record. -/
theorem c3_witness :
    (Record.mk "Oak" "Oak Tree" "Quercus").key ≠ "" ∨
      (Record.mk "Oak" "Oak Tree" "Quercus").common ≠ "" :=
  c3_no_record_with_empty_key_and_common
    (some ⟨[["Key", "Common Name", "Scientific Name"], ["Oak", "Oak Tree", "Quercus"],
      ["", "", ""], ["Maple", "Maple Tree", "Acer"]], true⟩)
    [Record.mk "Oak" "Oak Tree" "Quercus", Record.mk "Maple" "Maple Tree" "Acer"]
    (by decide) (Record.mk "Oak" "Oak Tree" "Quercus") (by decide)

/-- C2: with a detected header, producing zero header-keyed records makes the
conversion re-read the file from the start and return the positional parse of
all rows, while one or more header-keyed records are returned as they are,
with no positional pass. -/
theorem c2_zero_record_fallback (rows : List (List String)) :
    (headerPass rows = Except.ok [] →
      convert_csv_to_records (some ⟨rows, true⟩) = Except.ok (positionalPass rows)) ∧
    (∀ recs, headerPass rows = Except.ok recs → recs ≠ [] →
      convert_csv_to_records (some ⟨rows, true⟩) = Except.ok recs) := by
  constructor
  · intro h
    rw [convert_some_true, h, afterHeader_ok]
    simp
  · intro recs h hne
    rw [convert_some_true, h, afterHeader_ok, if_neg (by simpa using hne)]

/-- Witness for C2: a file whose header pass yields no records falls back to
the positional parse (which re-reads the header row as data), and a file
whose header pass yields one record returns exactly that record. -/
theorem c2_witness :
    convert_csv_to_records
        (some ⟨[["Key", "Common Name", "Scientific Name"], ["", "", ""]], true⟩) =
      Except.ok (positionalPass [["Key", "Common Name", "Scientific Name"], ["", "", ""]]) ∧
    convert_csv_to_records
        (some ⟨[["Key", "Common Name", "Scientific Name"], ["Oak", "Oak Tree", "Quercus"]],
          true⟩) =
      Except.ok [Record.mk "Oak" "Oak Tree" "Quercus"] :=
  ⟨(c2_zero_record_fallback _).1 (by decide),
   (c2_zero_record_fallback _).2 [Record.mk "Oak" "Oak Tree" "Quercus"] (by decide)
     (by decide)⟩

/-- C7: the conversion fails with the not-found error exactly when the input
path does not exist; any other failure while parsing is the read error; and
`main` exits with code 2 on either error. -/
theorem c7_error_model (file : Option CsvFile) :
    (convert_csv_to_records file = Except.error ConvError.notFound ↔ file = none) ∧
    (∀ f e, file = some f → convert_csv_to_records file = Except.error e →
      e = ConvError.readError) ∧
    (∀ e, convert_csv_to_records file = Except.error e → mainExitCode file = 2) := by
  have herr : ∀ f e, convert_csv_to_records (some f) = Except.error e →
      e = ConvError.readError := by
    intro f e h
    obtain ⟨rows, b⟩ := f
    cases b with
    | false =>
      rw [convert_some_false] at h
      cases h
    | true =>
      rw [convert_some_true] at h
      cases hp : headerPass rows with
      | error e2 =>
        rw [hp, afterHeader_error] at h
        cases h
        exact headerPass_error_read hp
      | ok records =>
        rw [hp, afterHeader_ok] at h
        by_cases he : records.isEmpty = true
        · rw [if_pos he] at h; cases h
        · rw [if_neg he] at h; cases h
  refine ⟨?_, fun f e hf => hf ▸ herr f e, ?_⟩
  · constructor
    · intro h
      cases file with
      | none => rfl
      | some f => cases herr f ConvError.notFound h
    · intro h
      subst h
      rfl
  · intro e h
    unfold mainExitCode
    rw [h]

/-- Witness for C7: a missing path gives the not-found error and exit code 2;
a surplus-cell file gives a read error and exit code 2. -/
theorem c7_witness :
    mainExitCode none = 2 ∧
    mainExitCode (some ⟨[["a"], ["x", "y"]], true⟩) = 2 ∧
    ConvError.readError = ConvError.readError :=
  ⟨(c7_error_model none).2.2 ConvError.notFound (by decide),
   (c7_error_model (some ⟨[["a"], ["x", "y"]], true⟩)).2.2 ConvError.readError (by decide),
   (c7_error_model (some ⟨[["a"], ["x", "y"]], true⟩)).2.1 ⟨[["a"], ["x", "y"]], true⟩
     ConvError.readError rfl (by decide)⟩

lemma any_isNone_dictInsert_none {β : Type} (d : List (Option String × β)) (v : β) :
    ((dictInsert d none v).any (fun e => e.1.isNone)) = true := by
  unfold dictInsert
  by_cases h : d.any (fun p => p.1 = none)
  · rw [if_pos h]
    rcases List.any_eq_true.mp h with ⟨p, hp, hpk⟩
    have hpk' : p.1 = none := by simpa using hpk
    refine List.any_eq_true.mpr ⟨(none, v), ?_, by simp⟩
    refine List.mem_map.mpr ⟨p, hp, ?_⟩
    simp [hpk']
  · rw [if_neg h]
    refine List.any_eq_true.mpr ⟨(none, v), by simp, by simp⟩

lemma build_surplus_error (fn cells : List String) (mode : InferMode)
    (h : fn.length < cells.length) :
    build_records_from_dictrow (dictReaderRow fn cells) mode =
      Except.error ConvError.readError := by
  have hany : ((dictReaderRow fn cells).any (fun e => e.1.isNone)) = true := by
    show ((if fn.length < cells.length then
        dictInsert (dictOfList ((fn.zip cells).map
          (fun p => (some p.1, DictVal.cell (some p.2))))) none
          (DictVal.surplus (cells.drop fn.length))
      else ((fn.drop cells.length).foldl
        (fun d k => dictInsert d (some k) (DictVal.cell none))
        (dictOfList ((fn.zip cells).map
          (fun p => (some p.1, DictVal.cell (some p.2))))))).any
        (fun e => e.1.isNone)) = true
    rw [if_pos h]
    exact any_isNone_dictInsert_none _ _
  unfold build_records_from_dictrow
  rw [if_pos hany]

lemma headerLoop_offender : ∀ {fn : List String} {mode : InferMode}
    {rows : List (List String)} {acc : List Record} {r : List String},
    r ∈ rows → fn.length < r.length →
    headerLoop fn mode rows acc = Except.error ConvError.readError := by
  intro fn mode rows
  induction rows with
  | nil =>
    intro acc r hmem _
    cases hmem
  | cons r0 rest ih =>
    intro acc r hmem hlen
    rcases List.mem_cons.mp hmem with heq | hmem'
    · subst heq
      have hr : r ≠ [] := by
        intro hnil
        rw [hnil] at hlen
        simp at hlen
      exact headerLoop_cons_error hr (build_surplus_error _ _ _ hlen)
    · by_cases hr0 : r0 = []
      · subst hr0
        rw [headerLoop_cons_blank]
        exact ih hmem' hlen
      · cases hb : build_records_from_dictrow (dictReaderRow fn r0) mode with
        | error e2 =>
          rw [headerLoop_cons_error hr0 hb, build_error_read hb]
        | ok rcd =>
          rw [headerLoop_cons_ok hr0 hb]
          by_cases hc : (rcd.key = "" && rcd.common = "") = true
          · rw [if_pos hc]; exact ih hmem' hlen
          · rw [if_neg hc]; exact ih hmem' hlen

/-- C10: in header-keyed mode, a data row with more cells than the header has
columns makes `csv.DictReader` store the surplus cells under the `None`
restkey, `build_records_from_dictrow` raises while stripping that key, and
the whole conversion aborts as a read error instead of producing a record for
that row or any later row. -/
theorem c10_surplus_row_aborts (fieldnames : List String) (rest : List (List String))
    (r : List String) (hmem : r ∈ rest) (hlen : fieldnames.length < r.length) :
    convert_csv_to_records (some ⟨fieldnames :: rest, true⟩) =
      Except.error ConvError.readError := by
  rw [convert_some_true, headerPass_cons, headerLoop_offender hmem hlen,
    afterHeader_error]

/-- Witness for C10: header row `a`, data row `x,y`. -/
theorem c10_witness :
    convert_csv_to_records (some ⟨[["a"], ["x", "y"]], true⟩) =
      Except.error ConvError.readError :=
  c10_surplus_row_aborts ["a"] [["x", "y"]] ["x", "y"] (by decide) (by decide)

/-- C8: an empty input yields the empty record sequence rather than an error,
`main` exits with code 0, and the emitted file reads
`window.__speciesRecords = [];` (compact: `window.__speciesRecords=[];`) plus
a newline; the same text is written for any input whose conversion yields no
records. -/
theorem c8_empty_input_empty_array (b : Bool) :
    convert_csv_to_records (some ⟨[], b⟩) = Except.ok [] ∧
    mainOutput (some ⟨[], b⟩) "window.__speciesRecords" false =
      some "window.__speciesRecords = [];\n" ∧
    mainOutput (some ⟨[], b⟩) "window.__speciesRecords" true =
      some "window.__speciesRecords=[];\n" ∧
    mainExitCode (some ⟨[], b⟩) = 0 ∧
    (∀ f : CsvFile, convert_csv_to_records (some f) = Except.ok [] →
      mainOutput (some f) "window.__speciesRecords" false =
        some "window.__speciesRecords = [];\n") := by
  have hout : ∀ f : CsvFile, convert_csv_to_records (some f) = Except.ok [] →
      mainOutput (some f) "window.__speciesRecords" false =
        some "window.__speciesRecords = [];\n" := by
    intro f h
    unfold mainOutput
    rw [h]
    decide
  cases b with
  | false => exact ⟨by decide, by decide, by decide, by decide, hout⟩
  | true => exact ⟨by decide, by decide, by decide, by decide, hout⟩

/-- Witness for C8: the empty file with either sniffer verdict. -/
theorem c8_witness :
    convert_csv_to_records (some ⟨[], true⟩) = Except.ok [] ∧
    mainOutput (some ⟨[], true⟩) "window.__speciesRecords" false =
      some "window.__speciesRecords = [];\n" :=
  ⟨(c8_empty_input_empty_array true).1,
   (c8_empty_input_empty_array true).2.2.2.2 ⟨[], true⟩ (by decide)⟩

lemma pyOr_self (a : String) : pyOr a a = a := by
  unfold pyOr
  split <;> rfl

lemma buildFromItems_three (k0 k1 k2 : String) (v0 v1 v2 : Option String)
    (n0 : pyLower (pyStrip k0) = "key") (n1 : pyLower (pyStrip k1) = "common name")
    (n2 : pyLower (pyStrip k2) = "scientific name") :
    buildFromItems [(k0, v0), (k1, v1), (k2, v2)] =
      ⟨pyStrip (v0.getD ""), pyStrip (v1.getD ""), pyStrip (v2.getD "")⟩ := by
  have a1 : ("key" : String) ≠ "common name" := by decide
  have a2 : ("key" : String) ≠ "scientific name" := by decide
  have a4 : ("common name" : String) ≠ "scientific name" := by decide
  have a5 : ("key" : String) ≠ "common" := by decide
  have a6 : ("common name" : String) ≠ "common" := by decide
  have a7 : ("scientific name" : String) ≠ "common" := by decide
  have a8 : ("key" : String) ≠ "scientific" := by decide
  have a9 : ("common name" : String) ≠ "scientific" := by decide
  have a10 : ("scientific name" : String) ≠ "scientific" := by decide
  have s1 : strContains "key" "common" = false := by decide
  have s2 : strContains "common name" "common" = true := by decide
  have s3 : strContains "key" "scientific" = false := by decide
  have s4 : strContains "common name" "scientific" = false := by decide
  have s5 : strContains "scientific name" "scientific" = true := by decide
  have hlook : normLookup [(k0, v0), (k1, v1), (k2, v2)] =
      [("key", v0), ("common name", v1), ("scientific name", v2)] := by
    unfold normLookup
    simp only [List.map_cons, List.map_nil, n0, n1, n2]
    simp [dictOfList, dictInsert, a1, a2, a4]
  unfold buildFromItems
  rw [hlook]
  have gk : gfield [("key", v0), ("common name", v1), ("scientific name", v2)] "key" =
      pyStrip (v0.getD "") := by
    simp [gfield, List.find?]
  have gcn : gfield [("key", v0), ("common name", v1), ("scientific name", v2)]
      "common name" = pyStrip (v1.getD "") := by
    simp [gfield, List.find?, a1]
  have gc : gfield [("key", v0), ("common name", v1), ("scientific name", v2)]
      "common" = pyStrip (v1.getD "") := by
    simp [gfield, List.find?, a5, a6, a7, s1, s2]
  have gsn : gfield [("key", v0), ("common name", v1), ("scientific name", v2)]
      "scientific name" = pyStrip (v2.getD "") := by
    simp [gfield, List.find?, a2, a4]
  have gs : gfield [("key", v0), ("common name", v1), ("scientific name", v2)]
      "scientific" = pyStrip (v2.getD "") := by
    simp [gfield, List.find?, a8, a9, a10, s3, s4, s5]
  rw [gk, gcn, gc, gsn, gs, pyOr_self, pyOr_self]

lemma build_goodHeader (h0 h1 h2 : String) (mode : InferMode)
    (n0 : pyLower (pyStrip h0) = "key") (n1 : pyLower (pyStrip h1) = "common name")
    (n2 : pyLower (pyStrip h2) = "scientific name") (r : List String)
    (hr : r.length ≤ 3) :
    build_records_from_dictrow (dictReaderRow [h0, h1, h2] r) mode =
      Except.ok (rowRecord r) := by
  have e01 : h0 ≠ h1 := by
    intro he
    rw [he, n1] at n0
    exact absurd n0 (by decide)
  have e02 : h0 ≠ h2 := by
    intro he
    rw [he, n2] at n0
    exact absurd n0 (by decide)
  have e12 : h1 ≠ h2 := by
    intro he
    rw [he, n2] at n1
    exact absurd n1 (by decide)
  rcases r with _ | ⟨c0, r⟩
  · have hdrr : dictReaderRow [h0, h1, h2] [] =
        [(some h0, DictVal.cell none), (some h1, DictVal.cell none),
         (some h2, DictVal.cell none)] := by
      simp [dictReaderRow, dictOfList, dictInsert, e01, e02, e12]
    rw [hdrr]
    unfold build_records_from_dictrow
    rw [if_neg (by simp)]
    have hit : dictItems [(some h0, DictVal.cell none), (some h1, DictVal.cell none),
        (some h2, DictVal.cell none)] = [(h0, none), (h1, none), (h2, none)] := by
      simp [dictItems]
    rw [hit, buildFromItems_three _ _ _ _ _ _ n0 n1 n2]
    rfl
  rcases r with _ | ⟨c1, r⟩
  · have hdrr : dictReaderRow [h0, h1, h2] [c0] =
        [(some h0, DictVal.cell (some c0)), (some h1, DictVal.cell none),
         (some h2, DictVal.cell none)] := by
      simp [dictReaderRow, dictOfList, dictInsert, e01, e02, e12]
    rw [hdrr]
    unfold build_records_from_dictrow
    rw [if_neg (by simp)]
    have hit : dictItems [(some h0, DictVal.cell (some c0)), (some h1, DictVal.cell none),
        (some h2, DictVal.cell none)] = [(h0, some c0), (h1, none), (h2, none)] := by
      simp [dictItems]
    rw [hit, buildFromItems_three _ _ _ _ _ _ n0 n1 n2]
    rfl
  rcases r with _ | ⟨c2, r⟩
  · have hdrr : dictReaderRow [h0, h1, h2] [c0, c1] =
        [(some h0, DictVal.cell (some c0)), (some h1, DictVal.cell (some c1)),
         (some h2, DictVal.cell none)] := by
      simp [dictReaderRow, dictOfList, dictInsert, e01, e02, e12]
    rw [hdrr]
    unfold build_records_from_dictrow
    rw [if_neg (by simp)]
    have hit : dictItems [(some h0, DictVal.cell (some c0)),
        (some h1, DictVal.cell (some c1)), (some h2, DictVal.cell none)] =
        [(h0, some c0), (h1, some c1), (h2, none)] := by
      simp [dictItems]
    rw [hit, buildFromItems_three _ _ _ _ _ _ n0 n1 n2]
    rfl
  rcases r with _ | ⟨c3, r⟩
  · have hdrr : dictReaderRow [h0, h1, h2] [c0, c1, c2] =
        [(some h0, DictVal.cell (some c0)), (some h1, DictVal.cell (some c1)),
         (some h2, DictVal.cell (some c2))] := by
      simp [dictReaderRow, dictOfList, dictInsert, e01, e02, e12]
    rw [hdrr]
    unfold build_records_from_dictrow
    rw [if_neg (by simp)]
    have hit : dictItems [(some h0, DictVal.cell (some c0)),
        (some h1, DictVal.cell (some c1)), (some h2, DictVal.cell (some c2))] =
        [(h0, some c0), (h1, some c1), (h2, some c2)] := by
      simp [dictItems]
    rw [hit, buildFromItems_three _ _ _ _ _ _ n0 n1 n2]
    rfl
  · simp at hr

lemma headerLoop_goodHeader (h0 h1 h2 : String) (mode : InferMode)
    (n0 : pyLower (pyStrip h0) = "key") (n1 : pyLower (pyStrip h1) = "common name")
    (n2 : pyLower (pyStrip h2) = "scientific name") :
    ∀ (rows : List (List String)) (acc : List Record), (∀ r ∈ rows, r.length ≤ 3) →
    headerLoop [h0, h1, h2] mode rows acc =
      Except.ok (acc ++ (rows.filter rowQualifies).map rowRecord) := by
  intro rows
  induction rows with
  | nil => intro acc _; simp [headerLoop_nil]
  | cons r rest ih =>
    intro acc hlen
    by_cases hr : r = []
    · subst hr
      rw [headerLoop_cons_blank, ih acc (fun x hx => hlen x (by simp [hx]))]
      rw [List.filter_cons_of_neg (by decide)]
    · have hb := build_goodHeader h0 h1 h2 mode n0 n1 n2 r (hlen r (by simp))
      rw [headerLoop_cons_ok hr hb]
      by_cases hq : rowQualifies r = true
      · have hcond : ((rowRecord r).key = "" && (rowRecord r).common = "") = false := by
          simp only [rowQualifies, rowRecord] at hq ⊢
          simp at hq ⊢
          tauto
        rw [hcond]
        simp only [Bool.false_eq_true, if_false]
        rw [ih (acc ++ [rowRecord r]) (fun x hx => hlen x (by simp [hx])),
          List.filter_cons_of_pos (by simpa using hq)]
        simp
      · have hcond : ((rowRecord r).key = "" && (rowRecord r).common = "") = true := by
          simp only [rowQualifies, rowRecord] at hq ⊢
          simpa using hq
        rw [hcond]
        simp only [if_true]
        rw [ih acc (fun x hx => hlen x (by simp [hx])),
          List.filter_cons_of_neg (by simpa using hq)]

/-- C1 counterexample: a file whose header row is exactly
`Key,Common Name,Scientific Name` and whose only data row is blank. The claim
(with the blank row dropped, as in the specification's own example) demands
zero records, but the header pass produces zero records, so the conversion
falls back to the positional pass, which re-reads the header row itself as a
data row and returns it as a record. -/
theorem c1_counterexample :
    convert_csv_to_records
        (some ⟨[["Key", "Common Name", "Scientific Name"], ["", "", ""]], true⟩) =
      Except.ok [Record.mk "Key" "Common Name" "Scientific Name"] ∧
    ([["", "", ""]].filter rowQualifies).map rowRecord = [] ∧
    [["", "", ""]].map rowRecord = [Record.mk "" "" ""] ∧
    Except.ok [Record.mk "Key" "Common Name" "Scientific Name"] ≠
      (Except.ok [] : Except ConvError (List Record)) ∧
    Except.ok [Record.mk "Key" "Common Name" "Scientific Name"] ≠
      (Except.ok [Record.mk "" "" ""] : Except ConvError (List Record)) := by
  refine ⟨?_, by decide, by decide, by decide, by decide⟩
  decide

/-- C1 (amended): for a CSV whose header row is exactly
`Key, Common Name, Scientific Name` (any letter case, surrounding blanks
allowed), whose data rows have at most three cells (more would abort, see the
surplus-cell behaviour), and at least one of whose data rows has a non-empty
trimmed first or second cell, the conversion — when the sniffer detects the
header — returns one record per such qualifying data row, carrying the
trimmed values of the three columns in input row order. Data rows whose
trimmed `Key` and `Common Name` cells are both empty are dropped, and if all
data rows are dropped the positional fallback re-parses the file and the
header row itself leaks into the output, which is why the qualifying data row
is required. -/
theorem c1_header_mapping_amended (h0 h1 h2 : String) (data : List (List String))
    (n0 : pyLower (pyStrip h0) = "key") (n1 : pyLower (pyStrip h1) = "common name")
    (n2 : pyLower (pyStrip h2) = "scientific name")
    (hlen : ∀ r ∈ data, r.length ≤ 3)
    (hx : ∃ r ∈ data, rowQualifies r = true) :
    convert_csv_to_records (some ⟨[h0, h1, h2] :: data, true⟩) =
      Except.ok ((data.filter rowQualifies).map rowRecord) := by
  rw [convert_some_true, headerPass_cons,
    headerLoop_goodHeader h0 h1 h2 _ n0 n1 n2 data [] hlen, afterHeader_ok]
  have hne : ((data.filter rowQualifies).map rowRecord) ≠ [] := by
    rcases hx with ⟨r, hr, hq⟩
    exact List.ne_nil_of_mem
      (List.mem_map.mpr ⟨r, List.mem_filter.mpr ⟨hr, hq⟩, rfl⟩)
  rw [if_neg (by simpa using hne)]
  simp

/-- Witness for C1 at the specification's example input. -/
theorem c1_witness :
    pyLower (pyStrip "Key") = "key" ∧
    convert_csv_to_records
        (some ⟨[["Key", "Common Name", "Scientific Name"], ["Oak", "Oak Tree", "Quercus"],
          ["", "", ""], ["Maple", "Maple Tree", "Acer"]], true⟩) =
      Except.ok (([["Oak", "Oak Tree", "Quercus"], ["", "", ""],
        ["Maple", "Maple Tree", "Acer"]].filter rowQualifies).map rowRecord) ∧
    (([["Oak", "Oak Tree", "Quercus"], ["", "", ""],
        ["Maple", "Maple Tree", "Acer"]].filter rowQualifies).map rowRecord) =
      [Record.mk "Oak" "Oak Tree" "Quercus", Record.mk "Maple" "Maple Tree" "Acer"] :=
  ⟨by decide,
   c1_header_mapping_amended "Key" "Common Name" "Scientific Name"
     [["Oak", "Oak Tree", "Quercus"], ["", "", ""], ["Maple", "Maple Tree", "Acer"]]
     (by decide) (by decide) (by decide) (by decide) (by decide),
   by decide⟩

/-- C4 counterexample: the row `,,Quercus` has three columns, but its first
two are empty, so the code drops it and returns no records, whereas the claim
demands one record per row — here `(key := "", common := "", scientific :=
"Quercus")`. -/
theorem c4_counterexample :
    convert_csv_to_records (some ⟨[["", "", "Quercus"]], false⟩) = Except.ok [] ∧
    [["", "", "Quercus"]].map rowRecord = [Record.mk "" "" "Quercus"] ∧
    (Except.ok [] : Except ConvError (List Record)) ≠
      Except.ok ([["", "", "Quercus"]].map rowRecord) := by
  refine ⟨?_, by decide, by decide⟩
  decide

/-- C4 (amended): for a CSV with no recognizable header (the sniffer reports
none) and at least three columns per row, the output records are the trimmed
values of the first three columns of each row, in row order — except that
rows whose trimmed first and second columns are both empty are dropped, as in
every parse mode. -/
theorem c4_positional_amended (rows : List (List String))
    (_hcols : ∀ r ∈ rows, 3 ≤ r.length) :
    convert_csv_to_records (some ⟨rows, false⟩) =
      Except.ok ((rows.filter rowQualifies).map rowRecord) := by
  rw [convert_some_false, positionalPass_eq]

/-- Witness for C4 at the specification's example `a,b,c`. -/
theorem c4_witness :
    (∀ r ∈ [["a", "b", "c"]], 3 ≤ r.length) ∧
    convert_csv_to_records (some ⟨[["a", "b", "c"]], false⟩) =
      Except.ok (([["a", "b", "c"]].filter rowQualifies).map rowRecord) ∧
    ([["a", "b", "c"]].filter rowQualifies).map rowRecord = [Record.mk "a" "b" "c"] :=
  ⟨by decide, c4_positional_amended [["a", "b", "c"]] (by decide), by decide⟩

lemma strContains_self (s : String) : strContains s s = true := by
  unfold strContains
  refine List.any_eq_true.mpr ⟨0, ?_, ?_⟩
  · simp [List.mem_range]
  · simp

/-- C9 counterexample: headers `commonx, Common Name` with cells `B` and a
blank. The header named exactly `common name` is present, so under the claim
the common field would be its trimmed value, the empty string; the code
instead falls through (because that value is empty) to the substring match,
which hits `commonx` first and yields `B`. -/
theorem c9_counterexample :
    build_records_from_dictrow (dictReaderRow ["commonx", "Common Name"] ["B", " "])
      InferMode.header = Except.ok (Record.mk "" "B" "") ∧
    (normLookup (dictItems (dictReaderRow ["commonx", "Common Name"] ["B", " "]))).find?
      (fun p => p.1 = "common name") = some ("common name", some " ") ∧
    pyStrip ((some " ").getD "") = "" ∧
    (Record.mk "" "B" "").common ≠ pyStrip ((some " ").getD "") := by
  refine ⟨?_, by decide, by decide, by decide⟩
  decide

/-- C9 (amended): in header-keyed record construction the lookups work on the
stripped, lower-cased header dict. The key field takes the exact `key`
header's stripped value whenever that header is present (even when the value
is blank), and is empty when no header contains `key`. The common field takes
the exact `common name` header's stripped value when that value is non-empty;
when the exact match is absent — and also, beyond the claim, when the matched
value strips to empty — it falls back to the `common` lookup (exact, then
first header in input column order containing `common` as a substring, the
same chain `gfield` implements, which also tries headers merely containing
`common name` first). The scientific field behaves like common with
`scientific name` and `scientific`. -/
theorem c9_field_matching_amended (row : DictRow) (mode : InferMode) (rcd : Record)
    (hok : build_records_from_dictrow row mode = Except.ok rcd) :
    (∀ v, (normLookup (dictItems row)).find? (fun p => p.1 = "key") = some v →
      rcd.key = pyStrip (v.2.getD "")) ∧
    ((normLookup (dictItems row)).find? (fun p => p.1 = "key") = none →
      (∀ p ∈ normLookup (dictItems row), strContains p.1 "key" = false) →
      rcd.key = "") ∧
    (∀ v, (normLookup (dictItems row)).find? (fun p => p.1 = "common name") = some v →
      pyStrip (v.2.getD "") ≠ "" → rcd.common = pyStrip (v.2.getD "")) ∧
    (∀ v, (normLookup (dictItems row)).find? (fun p => p.1 = "common name") = some v →
      pyStrip (v.2.getD "") = "" →
      rcd.common = gfield (normLookup (dictItems row)) "common") ∧
    ((∀ p ∈ normLookup (dictItems row), strContains p.1 "common name" = false) →
      rcd.common = gfield (normLookup (dictItems row)) "common") ∧
    (∀ v, (normLookup (dictItems row)).find? (fun p => p.1 = "scientific name") = some v →
      pyStrip (v.2.getD "") ≠ "" → rcd.scientific = pyStrip (v.2.getD "")) := by
  have hb : rcd = buildFromItems (dictItems row) := by
    unfold build_records_from_dictrow at hok
    by_cases hn : row.any (fun x => x.1.isNone)
    · rw [if_pos hn] at hok
      cases hok
    · rw [if_neg hn] at hok
      cases hok
      rfl
  subst hb
  refine ⟨?_, ?_, ?_, ?_, ?_, ?_⟩
  · intro v hv
    show gfield (normLookup (dictItems row)) "key" = pyStrip (v.2.getD "")
    unfold gfield
    rw [hv]
  · intro hnone hsub
    show gfield (normLookup (dictItems row)) "key" = ""
    unfold gfield
    rw [hnone, List.find?_eq_none.mpr (fun p hp => by simp [hsub p hp])]
  · intro v hv hne
    show pyOr (gfield (normLookup (dictItems row)) "common name")
      (gfield (normLookup (dictItems row)) "common") = pyStrip (v.2.getD "")
    have hg : gfield (normLookup (dictItems row)) "common name" = pyStrip (v.2.getD "") := by
      unfold gfield
      rw [hv]
    rw [hg]
    unfold pyOr
    rw [if_neg hne]
  · intro v hv hemp
    show pyOr (gfield (normLookup (dictItems row)) "common name")
      (gfield (normLookup (dictItems row)) "common") =
      gfield (normLookup (dictItems row)) "common"
    have hg : gfield (normLookup (dictItems row)) "common name" = pyStrip (v.2.getD "") := by
      unfold gfield
      rw [hv]
    rw [hg, hemp]
    rfl
  · intro hsub
    show pyOr (gfield (normLookup (dictItems row)) "common name")
      (gfield (normLookup (dictItems row)) "common") =
      gfield (normLookup (dictItems row)) "common"
    have hnone : (normLookup (dictItems row)).find? (fun p => p.1 = "common name") = none := by
      refine List.find?_eq_none.mpr (fun p hp => ?_)
      intro hpe
      have hp1 : p.1 = "common name" := by simpa using hpe
      have := hsub p hp
      rw [hp1, strContains_self] at this
      cases this
    have hg : gfield (normLookup (dictItems row)) "common name" = "" := by
      unfold gfield
      rw [hnone, List.find?_eq_none.mpr (fun p hp => by simp [hsub p hp])]
    rw [hg]
    rfl
  · intro v hv hne
    show pyOr (gfield (normLookup (dictItems row)) "scientific name")
      (gfield (normLookup (dictItems row)) "scientific") = pyStrip (v.2.getD "")
    have hg : gfield (normLookup (dictItems row)) "scientific name" =
        pyStrip (v.2.getD "") := by
      unfold gfield
      rw [hv]
    rw [hg]
    unfold pyOr
    rw [if_neg hne]

lemma hexVal_hexDigitChar (m : Nat) (hm : m < 16) : hexVal (hexDigitChar m) = some m := by
  interval_cases m <;> decide

lemma parseStrBody_escape : ∀ (cs rest : List Char),
    parseStrBody (cs.flatMap jsonEscapeChar ++ '"' :: rest) = some (cs, rest) := by
  intro cs
  induction cs with
  | nil =>
    intro rest
    simp only [List.flatMap_nil, List.nil_append]
    rw [parseStrBody.eq_def]
    simp
  | cons c cs ih =>
    intro rest
    by_cases h1 : c = '\\'
    · subst h1
      simp only [List.flatMap_cons]
      rw [show jsonEscapeChar '\\' = ['\\', '\\'] from by decide]
      simp only [List.cons_append, List.append_assoc]
      rw [parseStrBody.eq_def]
      simp [unescapeChar, ih]
    by_cases h2 : c = '"'
    · subst h2
      simp only [List.flatMap_cons]
      rw [show jsonEscapeChar '"' = ['\\', '"'] from by decide]
      simp only [List.cons_append, List.append_assoc]
      rw [parseStrBody.eq_def]
      simp [unescapeChar, ih]
    by_cases h3 : c = '\x08'
    · subst h3
      simp only [List.flatMap_cons]
      rw [show jsonEscapeChar '\x08' = ['\\', 'b'] from by decide]
      simp only [List.cons_append, List.append_assoc]
      rw [parseStrBody.eq_def]
      simp [unescapeChar, ih]
    by_cases h4 : c = '\x0c'
    · subst h4
      simp only [List.flatMap_cons]
      rw [show jsonEscapeChar '\x0c' = ['\\', 'f'] from by decide]
      simp only [List.cons_append, List.append_assoc]
      rw [parseStrBody.eq_def]
      simp [unescapeChar, ih]
    by_cases h5 : c = '\n'
    · subst h5
      simp only [List.flatMap_cons]
      rw [show jsonEscapeChar '\n' = ['\\', 'n'] from by decide]
      simp only [List.cons_append, List.append_assoc]
      rw [parseStrBody.eq_def]
      simp [unescapeChar, ih]
    by_cases h6 : c = '\r'
    · subst h6
      simp only [List.flatMap_cons]
      rw [show jsonEscapeChar '\r' = ['\\', 'r'] from by decide]
      simp only [List.cons_append, List.append_assoc]
      rw [parseStrBody.eq_def]
      simp [unescapeChar, ih]
    by_cases h7 : c = '\t'
    · subst h7
      simp only [List.flatMap_cons]
      rw [show jsonEscapeChar '\t' = ['\\', 't'] from by decide]
      simp only [List.cons_append, List.append_assoc]
      rw [parseStrBody.eq_def]
      simp [unescapeChar, ih]
    by_cases h8 : c.toNat < 32
    · have henc : jsonEscapeChar c = '\\' :: 'u' :: hex4 c.toNat := by
        rw [jsonEscapeChar]
        rw [if_neg h1, if_neg h2, if_neg h3, if_neg h4, if_neg h5, if_neg h6, if_neg h7,
          if_pos h8]
      simp only [List.flatMap_cons, henc, hex4, List.cons_append, List.append_assoc]
      have d1 : c.toNat / 4096 % 16 < 16 := Nat.mod_lt _ (by norm_num)
      have d2 : c.toNat / 256 % 16 < 16 := Nat.mod_lt _ (by norm_num)
      have d3 : c.toNat / 16 % 16 < 16 := Nat.mod_lt _ (by norm_num)
      have d4 : c.toNat % 16 < 16 := Nat.mod_lt _ (by norm_num)
      have harith : 4096 * (c.toNat / 4096 % 16) + 256 * (c.toNat / 256 % 16) +
          16 * (c.toNat / 16 % 16) + c.toNat % 16 = c.toNat := by omega
      rw [parseStrBody.eq_def]
      simp [hexVal_hexDigitChar _ d1, hexVal_hexDigitChar _ d2,
        hexVal_hexDigitChar _ d3, hexVal_hexDigitChar _ d4, ih, harith,
        Char.ofNat_toNat]
    · have henc : jsonEscapeChar c = [c] := by
        rw [jsonEscapeChar]
        rw [if_neg h1, if_neg h2, if_neg h3, if_neg h4, if_neg h5, if_neg h6, if_neg h7,
          if_neg h8]
      simp only [List.flatMap_cons, henc, List.cons_append]
      rw [parseStrBody.eq_def]
      simp [h1, h2, ih]

lemma skipWs_append_ws {pre : List Char} (l : List Char)
    (h : ∀ x ∈ pre, jsonWs x = true) : skipWs (pre ++ l) = skipWs l := by
  induction pre with
  | nil => rfl
  | cons a pre ih =>
    show skipWs (a :: (pre ++ l)) = skipWs l
    unfold skipWs
    rw [List.dropWhile_cons, if_pos (h a (by simp))]
    exact ih (fun x hx => h x (by simp [hx]))

lemma skipWs_not_ws {c : Char} (l : List Char) (hc : jsonWs c = false) :
    skipWs (c :: l) = c :: l := by
  unfold skipWs
  rw [List.dropWhile_cons, hc]
  simp

lemma expectChar_ws {pre : List Char} (c : Char) (l : List Char)
    (h : ∀ x ∈ pre, jsonWs x = true) (hc : jsonWs c = false) :
    expectChar c (pre ++ c :: l) = some l := by
  unfold expectChar
  rw [skipWs_append_ws _ h, skipWs_not_ws _ hc]
  simp

lemma expectChar_tok (c : Char) (l : List Char) (hc : jsonWs c = false) :
    expectChar c (c :: l) = some l := by
  unfold expectChar
  rw [skipWs_not_ws _ hc]
  simp

lemma expectChar_fail {pre : List Char} (c d : Char) (l : List Char)
    (h : ∀ x ∈ pre, jsonWs x = true) (hd : jsonWs d = false) (hne : d ≠ c) :
    expectChar c (pre ++ d :: l) = none := by
  unfold expectChar
  rw [skipWs_append_ws _ h, skipWs_not_ws _ hd]
  simp [hne]

lemma parseJString_emit {pre : List Char} (s : String) (rest : List Char)
    (h : ∀ x ∈ pre, jsonWs x = true) :
    parseJString (pre ++ (escChars s ++ rest)) = some (s.data, rest) := by
  unfold parseJString escChars
  rw [show pre ++ (('"' :: s.data.flatMap jsonEscapeChar ++ ['"']) ++ rest) =
    pre ++ '"' :: (s.data.flatMap jsonEscapeChar ++ '"' :: rest) from by simp]
  rw [expectChar_ws '"' _ h (by decide)]
  exact parseStrBody_escape s.data rest

lemma parseField_emit {pre sp : List Char} (name v : String) (rest : List Char)
    (hpre : ∀ x ∈ pre, jsonWs x = true) (hsp : ∀ x ∈ sp, jsonWs x = true) :
    parseField name (pre ++ (escChars name ++ ':' :: (sp ++ (escChars v ++ rest)))) =
      some (v, rest) := by
  unfold parseField
  rw [show pre ++ (escChars name ++ ':' :: (sp ++ (escChars v ++ rest))) =
    pre ++ (escChars name ++ (':' :: (sp ++ (escChars v ++ rest)))) from by simp]
  rw [parseJString_emit name _ hpre]
  simp only [Option.bind_eq_bind, Option.some_bind]
  rw [if_pos trivial]
  rw [show (':' :: (sp ++ (escChars v ++ rest))) = [] ++ ':' :: (sp ++ (escChars v ++ rest))
    from rfl]
  rw [expectChar_ws ':' _ (by intro x hx; cases hx) (by decide)]
  simp only [Option.some_bind]
  rw [parseJString_emit v _ hsp]
  simp only [Option.some_bind]
  rfl

lemma parseRecordObj_emit {pre wk wv wend : List Char} (r : Record) (rest : List Char)
    (hpre : ∀ x ∈ pre, jsonWs x = true) (hwk : ∀ x ∈ wk, jsonWs x = true)
    (hwv : ∀ x ∈ wv, jsonWs x = true) (hwend : ∀ x ∈ wend, jsonWs x = true) :
    parseRecordObj (pre ++ (recordEnc wk wv wend r ++ rest)) = some (r, rest) := by
  unfold parseRecordObj
  have hsplit : pre ++ (recordEnc wk wv wend r ++ rest) =
      pre ++ lbrace :: (wk ++ (escChars "key" ++ ':' :: (wv ++ (escChars r.key ++ ',' ::
        (wk ++ (escChars "common" ++ ':' :: (wv ++ (escChars r.common ++ ',' ::
        (wk ++ (escChars "scientific" ++ ':' :: (wv ++ (escChars r.scientific ++
        (wend ++ rbrace :: rest))))))))))))) := by
    simp [recordEnc]
  rw [hsplit, expectChar_ws lbrace _ hpre (by decide)]
  simp only [Option.bind_eq_bind, Option.some_bind]
  rw [parseField_emit "key" r.key _ hwk hwv]
  simp only [Option.some_bind]
  rw [expectChar_tok ',' _ (by decide)]
  simp only [Option.some_bind]
  rw [parseField_emit "common" r.common _ hwk hwv]
  simp only [Option.some_bind]
  rw [expectChar_tok ',' _ (by decide)]
  simp only [Option.some_bind]
  rw [parseField_emit "scientific" r.scientific _ hwk hwv]
  simp only [Option.some_bind]
  rw [expectChar_ws rbrace _ hwend (by decide)]
  simp only [Option.some_bind]
  rfl

lemma joinSep_length_ge (sep : List Char) :
    ∀ (l : List (List Char)), (∀ x ∈ l, x ≠ []) → l.length ≤ (joinSep sep l).length := by
  intro l
  induction l with
  | nil => intro _; simp [joinSep]
  | cons x l ih =>
    intro h
    cases l with
    | nil =>
      have hx : x ≠ [] := h x (by simp)
      have : 1 ≤ x.length := by
        cases x with
        | nil => cases hx rfl
        | cons a t => simp
      simpa [joinSep] using this
    | cons y l2 =>
      have hrec := ih (fun z hz => h z (by simp [hz]))
      show (x :: y :: l2).length ≤ (x ++ sep ++ joinSep sep (y :: l2)).length
      have hx : x ≠ [] := h x (by simp)
      have hx1 : 1 ≤ x.length := by
        cases x with
        | nil => cases hx rfl
        | cons a t => simp
      simp only [List.length_append, List.length_cons] at hrec ⊢
      omega

lemma joinSep_head (sep : List Char) (x T : List Char) (L : List (List Char))
    (hx : x = lbrace :: T) : ∃ T2, joinSep sep (x :: L) = lbrace :: T2 := by
  subst hx
  cases L with
  | nil => exact ⟨T, rfl⟩
  | cons y l2 => exact ⟨T ++ (sep ++ joinSep sep (y :: l2)), by simp [joinSep]⟩

lemma recordEnc_head (wk wv wend : List Char) (r : Record) :
    ∃ T, recordEnc wk wv wend r = lbrace :: T :=
  ⟨_, rfl⟩

lemma parseRecsAux_emit (wk wv wend sepws endws : List Char)
    (hwk : ∀ x ∈ wk, jsonWs x = true) (hwv : ∀ x ∈ wv, jsonWs x = true)
    (hwend : ∀ x ∈ wend, jsonWs x = true) (hsepws : ∀ x ∈ sepws, jsonWs x = true)
    (hendws : ∀ x ∈ endws, jsonWs x = true) :
    ∀ (rs : List Record) (r0 : Record) (fuel : Nat) (pre rest : List Char),
    (∀ x ∈ pre, jsonWs x = true) → rs.length < fuel →
    parseRecsAux fuel (pre ++ (joinSep (',' :: sepws)
        ((r0 :: rs).map (recordEnc wk wv wend)) ++ (endws ++ ']' :: rest))) =
      some (r0 :: rs, rest) := by
  intro rs
  induction rs with
  | nil =>
    intro r0 fuel pre rest hpre hfuel
    obtain ⟨f, rfl⟩ : ∃ f, fuel = f + 1 := ⟨fuel - 1, by omega⟩
    rw [show pre ++ (joinSep (',' :: sepws) ([r0].map (recordEnc wk wv wend)) ++
        (endws ++ ']' :: rest)) =
      pre ++ (recordEnc wk wv wend r0 ++ (endws ++ ']' :: rest)) from by simp [joinSep]]
    rw [parseRecsAux]
    simp only [Option.bind_eq_bind]
    rw [parseRecordObj_emit r0 _ hpre hwk hwv hwend]
    simp only [Option.some_bind]
    rw [expectChar_fail ',' ']' _ hendws (by decide) (by decide)]
    rw [expectChar_ws ']' _ hendws (by decide)]
    rfl
  | cons r1 rs ih =>
    intro r0 fuel pre rest hpre hfuel
    obtain ⟨f, rfl⟩ : ∃ f, fuel = f + 1 := ⟨fuel - 1, by omega⟩
    rw [show pre ++ (joinSep (',' :: sepws)
        ((r0 :: r1 :: rs).map (recordEnc wk wv wend)) ++ (endws ++ ']' :: rest)) =
      pre ++ (recordEnc wk wv wend r0 ++ (',' :: (sepws ++ (joinSep (',' :: sepws)
        ((r1 :: rs).map (recordEnc wk wv wend)) ++ (endws ++ ']' :: rest)))))
      from by simp [joinSep]]
    rw [parseRecsAux]
    simp only [Option.bind_eq_bind]
    rw [parseRecordObj_emit r0 _ hpre hwk hwv hwend]
    simp only [Option.some_bind]
    rw [expectChar_tok ',' _ (by decide)]
    have hrec := ih r1 f sepws rest hsepws (by simp at hfuel ⊢; omega)
    simp only [List.map_cons] at hrec
    simp [hrec]

/-- Witness for C9: headers `Common Name, Other` with a padded value; the
exact match wins and is stripped. -/
theorem c9_witness :
    build_records_from_dictrow (dictReaderRow ["Common Name", "Other"] ["  Oak  ", "x"])
      InferMode.header = Except.ok (Record.mk "" "Oak" "") ∧
    (Record.mk "" "Oak" "").common = pyStrip ((some "  Oak  ").getD "") := by
  refine ⟨by decide, ?_⟩
  exact (c9_field_matching_amended (dictReaderRow ["Common Name", "Other"] ["  Oak  ", "x"])
    InferMode.header (Record.mk "" "Oak" "") (by decide)).2.2.1
    ("common name", some "  Oak  ") (by decide) (by decide)

lemma expectChar_tok_fail (c d : Char) (l : List Char) (hd : jsonWs d = false)
    (hne : d ≠ c) : expectChar c (d :: l) = none := by
  unfold expectChar
  rw [skipWs_not_ws _ hd]
  simp [hne]

lemma recordEnc_ne_nil (wk wv wend : List Char) (r : Record) :
    recordEnc wk wv wend r ≠ [] := by
  obtain ⟨T, hT⟩ := recordEnc_head wk wv wend r
  simp [hT]

lemma parse_dumpsCompact (records : List Record) :
    parseRecordsText (dumpsCompact records) = some records := by
  cases records with
  | nil => decide
  | cons r0 rs =>
    have hdata : (dumpsCompact (r0 :: rs)).data =
        '[' :: (joinSep [','] (List.map (recordEnc [] [] []) (r0 :: rs)) ++ [']']) := by
      simp [dumpsCompact]
    obtain ⟨T, hT⟩ := recordEnc_head [] [] [] r0
    obtain ⟨T2, hT2⟩ := joinSep_head [','] _ T (rs.map (recordEnc [] [] [])) hT
    have hfail : expectChar ']'
        (joinSep [','] (List.map (recordEnc [] [] []) (r0 :: rs)) ++ [']']) = none := by
      rw [List.map_cons, hT2]
      simp only [List.cons_append]
      exact expectChar_tok_fail ']' lbrace _ (by decide) (by decide)
    have hlen : rs.length <
        ('[' :: (joinSep [','] (List.map (recordEnc [] [] []) (r0 :: rs)) ++ [']'])).length
          + 1 := by
      have h1 := joinSep_length_ge [','] (List.map (recordEnc [] [] []) (r0 :: rs))
        (by
          intro x hx
          rcases List.mem_map.mp hx with ⟨r, _, rfl⟩
          exact recordEnc_ne_nil [] [] [] r)
      simp only [List.length_cons, List.length_append, List.length_map] at h1 ⊢
      omega
    have hrecs : parseRecsAux
        (('[' :: (joinSep [','] (List.map (recordEnc [] [] []) (r0 :: rs)) ++ [']'])).length
          + 1)
        (joinSep [','] (List.map (recordEnc [] [] []) (r0 :: rs)) ++ [']']) =
        some (r0 :: rs, []) := by
      have h := parseRecsAux_emit [] [] [] [] []
        (by intro x hx; cases hx) (by intro x hx; cases hx) (by intro x hx; cases hx)
        (by intro x hx; cases hx) (by intro x hx; cases hx)
        rs r0
        (('[' :: (joinSep [','] (List.map (recordEnc [] [] []) (r0 :: rs)) ++ [']'])).length
          + 1)
        [] [] (by intro x hx; cases hx) hlen
      simpa using h
    unfold parseRecordsText
    rw [hdata]
    rw [expectChar_tok '[' _ (by decide)]
    simp only [Option.bind_eq_bind, Option.some_bind]
    rw [hfail, hrecs]
    simp [skipWs]

lemma parse_dumpsPretty (records : List Record) :
    parseRecordsText (dumpsPretty records) = some records := by
  cases records with
  | nil => decide
  | cons r0 rs =>
    have hdata : (dumpsPretty (r0 :: rs)).data =
        '[' :: ('\n' :: ' ' :: ' ' :: [] ++ (joinSep [',', '\n', ' ', ' ']
          (List.map (recordEnc ['\n', ' ', ' ', ' ', ' '] [' '] ['\n', ' ', ' '])
            (r0 :: rs)) ++ (['\n'] ++ ']' :: []))) := by
      simp [dumpsPretty]
    obtain ⟨T, hT⟩ := recordEnc_head ['\n', ' ', ' ', ' ', ' '] [' '] ['\n', ' ', ' '] r0
    obtain ⟨T2, hT2⟩ := joinSep_head [',', '\n', ' ', ' '] _ T
      (rs.map (recordEnc ['\n', ' ', ' ', ' ', ' '] [' '] ['\n', ' ', ' '])) hT
    have hfail : expectChar ']'
        ('\n' :: ' ' :: ' ' :: [] ++ (joinSep [',', '\n', ' ', ' ']
          (List.map (recordEnc ['\n', ' ', ' ', ' ', ' '] [' '] ['\n', ' ', ' '])
            (r0 :: rs)) ++ (['\n'] ++ ']' :: []))) = none := by
      rw [List.map_cons, hT2]
      rw [show ('\n' :: ' ' :: ' ' :: [] ++ ((lbrace :: T2) ++ (['\n'] ++ ']' :: []))) =
        ['\n', ' ', ' '] ++ lbrace :: (T2 ++ (['\n'] ++ ']' :: [])) from by simp]
      exact expectChar_fail ']' lbrace _ (by decide) (by decide) (by decide)
    have hlen : rs.length <
        ('[' :: ('\n' :: ' ' :: ' ' :: [] ++ (joinSep [',', '\n', ' ', ' ']
          (List.map (recordEnc ['\n', ' ', ' ', ' ', ' '] [' '] ['\n', ' ', ' '])
            (r0 :: rs)) ++ (['\n'] ++ ']' :: [])))).length + 1 := by
      have h1 := joinSep_length_ge [',', '\n', ' ', ' ']
        (List.map (recordEnc ['\n', ' ', ' ', ' ', ' '] [' '] ['\n', ' ', ' ']) (r0 :: rs))
        (by
          intro x hx
          rcases List.mem_map.mp hx with ⟨r, _, rfl⟩
          exact recordEnc_ne_nil _ _ _ r)
      simp only [List.length_cons, List.length_append, List.length_map,
        List.nil_append] at h1 ⊢
      omega
    have hrecs : parseRecsAux
        (('[' :: ('\n' :: ' ' :: ' ' :: [] ++ (joinSep [',', '\n', ' ', ' ']
          (List.map (recordEnc ['\n', ' ', ' ', ' ', ' '] [' '] ['\n', ' ', ' '])
            (r0 :: rs)) ++ (['\n'] ++ ']' :: [])))).length + 1)
        ('\n' :: ' ' :: ' ' :: [] ++ (joinSep [',', '\n', ' ', ' ']
          (List.map (recordEnc ['\n', ' ', ' ', ' ', ' '] [' '] ['\n', ' ', ' '])
            (r0 :: rs)) ++ (['\n'] ++ ']' :: []))) = some (r0 :: rs, []) := by
      have h := parseRecsAux_emit ['\n', ' ', ' ', ' ', ' '] [' '] ['\n', ' ', ' ']
        ['\n', ' ', ' '] ['\n']
        (by decide) (by decide) (by decide) (by decide) (by decide)
        rs r0
        (('[' :: ('\n' :: ' ' :: ' ' :: [] ++ (joinSep [',', '\n', ' ', ' ']
          (List.map (recordEnc ['\n', ' ', ' ', ' ', ' '] [' '] ['\n', ' ', ' '])
            (r0 :: rs)) ++ (['\n'] ++ ']' :: [])))).length + 1)
        ['\n', ' ', ' '] [] (by decide) hlen
      simpa using h
    unfold parseRecordsText
    rw [hdata]
    rw [show ('[' :: ('\n' :: ' ' :: ' ' :: [] ++ (joinSep [',', '\n', ' ', ' ']
        (List.map (recordEnc ['\n', ' ', ' ', ' ', ' '] [' '] ['\n', ' ', ' '])
          (r0 :: rs)) ++ (['\n'] ++ ']' :: [])))) =
      '[' :: ('\n' :: ' ' :: ' ' :: [] ++ (joinSep [',', '\n', ' ', ' ']
        (List.map (recordEnc ['\n', ' ', ' ', ' ', ' '] [' '] ['\n', ' ', ' '])
          (r0 :: rs)) ++ (['\n'] ++ ']' :: []))) from rfl]
    rw [expectChar_tok '[' _ (by decide)]
    simp only [Option.bind_eq_bind, Option.some_bind]
    rw [hfail, hrecs]
    simp [skipWs]

lemma hexDigitChar_ne_newline (n : Nat) (h : n < 16) : hexDigitChar n ≠ '\n' := by
  interval_cases n <;> decide

lemma escape_no_newline {c x : Char} (hx : x ∈ jsonEscapeChar c) : x ≠ '\n' := by
  by_cases h1 : c = '\\'
  · subst h1
    rw [show jsonEscapeChar '\\' = ['\\', '\\'] from by decide] at hx
    simp at hx
    rw [hx]
    decide
  by_cases h2 : c = '"'
  · subst h2
    rw [show jsonEscapeChar '"' = ['\\', '"'] from by decide] at hx
    simp at hx
    rcases hx with h | h <;> (rw [h]; decide)
  by_cases h3 : c = '\x08'
  · subst h3
    rw [show jsonEscapeChar '\x08' = ['\\', 'b'] from by decide] at hx
    simp at hx
    rcases hx with h | h <;> (rw [h]; decide)
  by_cases h4 : c = '\x0c'
  · subst h4
    rw [show jsonEscapeChar '\x0c' = ['\\', 'f'] from by decide] at hx
    simp at hx
    rcases hx with h | h <;> (rw [h]; decide)
  by_cases h5 : c = '\n'
  · subst h5
    rw [show jsonEscapeChar '\n' = ['\\', 'n'] from by decide] at hx
    simp at hx
    rcases hx with h | h <;> (rw [h]; decide)
  by_cases h6 : c = '\r'
  · subst h6
    rw [show jsonEscapeChar '\r' = ['\\', 'r'] from by decide] at hx
    simp at hx
    rcases hx with h | h <;> (rw [h]; decide)
  by_cases h7 : c = '\t'
  · subst h7
    rw [show jsonEscapeChar '\t' = ['\\', 't'] from by decide] at hx
    simp at hx
    rcases hx with h | h <;> (rw [h]; decide)
  by_cases h8 : c.toNat < 32
  · have henc : jsonEscapeChar c = '\\' :: 'u' :: hex4 c.toNat := by
      rw [jsonEscapeChar]
      rw [if_neg h1, if_neg h2, if_neg h3, if_neg h4, if_neg h5, if_neg h6, if_neg h7,
        if_pos h8]
    rw [henc] at hx
    simp [hex4] at hx
    rcases hx with h | h | h | h | h | h
    · rw [h]; decide
    · rw [h]; decide
    · rw [h]; exact hexDigitChar_ne_newline _ (Nat.mod_lt _ (by norm_num))
    · rw [h]; exact hexDigitChar_ne_newline _ (Nat.mod_lt _ (by norm_num))
    · rw [h]; exact hexDigitChar_ne_newline _ (Nat.mod_lt _ (by norm_num))
    · rw [h]; exact hexDigitChar_ne_newline _ (Nat.mod_lt _ (by norm_num))
  · have henc : jsonEscapeChar c = [c] := by
      rw [jsonEscapeChar]
      rw [if_neg h1, if_neg h2, if_neg h3, if_neg h4, if_neg h5, if_neg h6, if_neg h7,
        if_neg h8]
    rw [henc] at hx
    simp at hx
    rw [hx]
    exact h5

lemma escChars_no_newline (s : String) : '\n' ∉ escChars s := by
  unfold escChars
  intro hmem
  rcases List.mem_cons.mp hmem with h | h
  · exact absurd h (by decide)
  rcases List.mem_append.mp h with h2 | h2
  · rcases List.mem_flatMap.mp h2 with ⟨a, _, ha⟩
    exact escape_no_newline ha rfl
  · exact absurd (List.mem_singleton.mp h2) (by decide)

lemma recordEnc_no_newline (r : Record) : '\n' ∉ recordEnc [] [] [] r := by
  have k1 := escChars_no_newline "key"
  have k2 := escChars_no_newline r.key
  have k3 := escChars_no_newline "common"
  have k4 := escChars_no_newline r.common
  have k5 := escChars_no_newline "scientific"
  have k6 := escChars_no_newline r.scientific
  have d1 : ('\n' : Char) ≠ lbrace := by decide
  have d2 : ('\n' : Char) ≠ ':' := by decide
  have d3 : ('\n' : Char) ≠ ',' := by decide
  have d4 : ('\n' : Char) ≠ rbrace := by decide
  unfold recordEnc
  intro hmem
  simp only [List.nil_append, List.mem_cons, List.mem_append] at hmem
  tauto

lemma joinSep_no_newline (sep : List Char) (hsep : '\n' ∉ sep) :
    ∀ (l : List (List Char)), (∀ x ∈ l, '\n' ∉ x) → '\n' ∉ joinSep sep l := by
  intro l
  induction l with
  | nil => intro _; simp [joinSep]
  | cons x l ih =>
    cases l with
    | nil =>
      intro h
      simpa [joinSep] using h x (by simp)
    | cons y l2 =>
      intro h
      show '\n' ∉ x ++ sep ++ joinSep sep (y :: l2)
      have hx := h x (by simp)
      have hrec := ih (fun z hz => h z (by simp [hz]))
      simp only [List.mem_append]
      tauto

lemma dumpsCompact_no_newline (records : List Record) :
    '\n' ∉ (dumpsCompact records).data := by
  intro hmem
  have hdata : (dumpsCompact records).data =
      '[' :: (joinSep [','] (List.map (recordEnc [] [] []) records) ++ [']']) := by
    simp [dumpsCompact]
  rw [hdata] at hmem
  rcases List.mem_cons.mp hmem with h | h
  · exact absurd h (by decide)
  rcases List.mem_append.mp h with h2 | h2
  · refine joinSep_no_newline [','] (by decide) _ ?_ h2
    intro x hx
    rcases List.mem_map.mp hx with ⟨r, _, rfl⟩
    exact recordEnc_no_newline r
  · exact absurd (List.mem_singleton.mp h2) (by decide)

lemma pretty_ne_compact {records : List Record} (hne : records ≠ []) :
    dumpsPretty records ≠ dumpsCompact records := by
  intro heq
  cases records with
  | nil => exact hne rfl
  | cons r0 rs =>
    have hmem : '\n' ∈ (dumpsPretty (r0 :: rs)).data := by
      have hdata : (dumpsPretty (r0 :: rs)).data =
          '[' :: ('\n' :: ' ' :: ' ' :: [] ++ (joinSep [',', '\n', ' ', ' ']
            (List.map (recordEnc ['\n', ' ', ' ', ' ', ' '] [' '] ['\n', ' ', ' '])
              (r0 :: rs)) ++ (['\n'] ++ ']' :: []))) := by
        simp [dumpsPretty]
      rw [hdata]
      simp
    rw [heq] at hmem
    exact absurd hmem (dumpsCompact_no_newline (r0 :: rs))

/-- C5: reading the JSON array embedded in the emitted statement gives back
exactly the record sequence that was serialized, in both layouts, and the two
layouts denote the same JSON value even though their bytes differ for a
non-empty sequence. The last two conjuncts exhibit where the JSON array sits
inside the text `write_js` produces. -/
theorem c5_roundtrip_semantics (records : List Record) (var_name : String) :
    parseRecordsText (dumpsPretty records) = some records ∧
    parseRecordsText (dumpsCompact records) = some records ∧
    (records ≠ [] → dumpsPretty records ≠ dumpsCompact records) ∧
    write_js_text records var_name false =
      var_name ++ " = " ++ dumpsPretty records ++ ";\n" ∧
    write_js_text records var_name true =
      var_name ++ "=" ++ dumpsCompact records ++ ";\n" :=
  ⟨parse_dumpsPretty records, parse_dumpsCompact records, pretty_ne_compact, rfl, rfl⟩

/-- Witness for C5 at a one-record sequence. -/
theorem c5_witness :
    parseRecordsText (dumpsPretty [Record.mk "Oak" "Oak Tree" "Quercus"]) =
      some [Record.mk "Oak" "Oak Tree" "Quercus"] ∧
    dumpsPretty [Record.mk "Oak" "Oak Tree" "Quercus"] ≠
      dumpsCompact [Record.mk "Oak" "Oak Tree" "Quercus"] :=
  ⟨(c5_roundtrip_semantics [Record.mk "Oak" "Oak Tree" "Quercus"] "x").1,
   (c5_roundtrip_semantics [Record.mk "Oak" "Oak Tree" "Quercus"] "x").2.2.1
     (by decide)⟩

lemma jsonEscapeChar_literal (c : Char) (h32 : 31 < c.toNat) (hq : c ≠ '"')
    (hb : c ≠ '\\') : jsonEscapeChar c = [c] := by
  rw [jsonEscapeChar]
  rw [if_neg hb, if_neg hq,
    if_neg (by intro he; rw [he] at h32; exact absurd h32 (by decide)),
    if_neg (by intro he; rw [he] at h32; exact absurd h32 (by decide)),
    if_neg (by intro he; rw [he] at h32; exact absurd h32 (by decide)),
    if_neg (by intro he; rw [he] at h32; exact absurd h32 (by decide)),
    if_neg (by intro he; rw [he] at h32; exact absurd h32 (by decide)),
    if_neg (by omega)]

lemma write_js_count_newline (records : List Record) (var_name : String) :
    (write_js_text records var_name true).data.count '\n' =
      var_name.data.count '\n' + 1 := by
  unfold write_js_text
  simp only [if_pos rfl]
  have h0 : (dumpsCompact records).data.count '\n' = 0 :=
    List.count_eq_zero.mpr (dumpsCompact_no_newline records)
  simp [String.data_append, List.count_append, h0]

/-- C6: `write_js` emits exactly one statement — pretty mode writes
`<var> = <json>;` with the two-space-indented layout of `dumpsPretty`,
compact mode writes `<var>=<json>;` whose JSON contains no whitespace other
than inside string literals (witnessed here by the compact JSON containing no
newline at all, so the output is a single line beyond the variable name), and
every character above the control range other than the quote and the
backslash — in particular every non-ASCII character — is emitted literally
rather than as an escape sequence. -/
theorem c6_emission_format (records : List Record) (var_name : String) :
    write_js_text records var_name false =
      var_name ++ " = " ++ dumpsPretty records ++ ";\n" ∧
    write_js_text records var_name true =
      var_name ++ "=" ++ dumpsCompact records ++ ";\n" ∧
    '\n' ∉ (dumpsCompact records).data ∧
    (write_js_text records var_name true).data.count '\n' =
      var_name.data.count '\n' + 1 ∧
    (∀ c : Char, 31 < c.toNat → c ≠ '"' → c ≠ '\\' → jsonEscapeChar c = [c]) :=
  ⟨rfl, rfl, dumpsCompact_no_newline records, write_js_count_newline records var_name,
   jsonEscapeChar_literal⟩

/-- Witness for C6: a non-ASCII character is emitted literally. -/
theorem c6_witness :
    jsonEscapeChar 'é' = ['é'] ∧
    write_js_text [] "v" true = "v=[];\n" :=
  ⟨(c6_emission_format [] "v").2.2.2.2 'é' (by decide) (by decide) (by decide),
   by decide⟩

end Csvtojs
